import Mathlib

/-!
Verification development for the Stocky stock-rewards platform
(Go sources under internal/services, internal/repository-style code,
internal/handlers, internal/models, plus the SQL schema).

Numeric values that the Go code stores in float64 / SQL NUMERIC are
modelled as rationals (ℚ); the spec itself mandates decimal semantics.
Timestamps, log messages and human-readable description strings are not
modelled: no claim depends on them.
-/

namespace Stocky

/-- The Go `int(x)` conversion on a float: truncation toward zero
(floor for nonnegative arguments, ceiling for negative ones). -/
def goTrunc (q : ℚ) : ℤ := if 0 ≤ q then ⌊q⌋ else -⌊-q⌋

/-- The `multiplier` accumulation loop in `roundToDecimal`
(`multiplier := 1.0; for i in 0..<decimals, multiplier *= 10`). -/
def multiplierLoop : ℕ → ℚ
  | 0 => 1
  | n + 1 => multiplierLoop n * 10

/-- Model of `roundToDecimal` from internal/services/services.go:
`float64(int(value*multiplier + 0.5)) / multiplier`. -/
def roundToDecimal (value : ℚ) (decimals : ℕ) : ℚ :=
  let multiplier := multiplierLoop decimals
  ((goTrunc (value * multiplier + 1/2) : ℚ)) / multiplier

/-- Modelled from the spec: "rounding is round-half-away-from-zero at the
stated precision" — round the magnitude with ties upward, then restore the
sign.  This definition follows the wording of the spec and exists only to be
compared with the `roundToDecimal` of the code. -/
def roundHalfAwayFromZero (value : ℚ) (decimals : ℕ) : ℚ :=
  let m : ℚ := 10 ^ decimals
  if 0 ≤ value then ((⌊value * m + 1/2⌋ : ℤ) : ℚ) / m
  else -(((⌊-value * m + 1/2⌋ : ℤ) : ℚ) / m)

/-- Model of `FeesConfig` from internal/services/services.go (rates as integers:
basis points of gross value, except GST which is percent of brokerage). -/
structure FeesConfig where
  BrokerageFeeBC : ℤ
  STTFeeBC : ℤ
  GSTFeeBC : ℤ
  ExchangeFeeBC : ℤ
  SEBIFeeBC : ℤ
deriving DecidableEq

/-- Model of `Fees` from internal/services/services.go. -/
structure Fees where
  Brokerage : ℚ
  STT : ℚ
  GST : ℚ
  Exchange : ℚ
  SEBI : ℚ
  Total : ℚ
deriving DecidableEq

/-- Model of `calculateFees` from internal/services/services.go: raw components from
the unrounded gross value, GST from the unrounded brokerage, the total from
the unrounded components; every stored field rounded to 4 digits. -/
def calculateFees (cfg : FeesConfig) (totalValue : ℚ) : Fees :=
  let brokerage := totalValue * (cfg.BrokerageFeeBC : ℚ) / 10000
  let stt := totalValue * (cfg.STTFeeBC : ℚ) / 10000
  let exchange := totalValue * (cfg.ExchangeFeeBC : ℚ) / 10000
  let sebi := totalValue * (cfg.SEBIFeeBC : ℚ) / 10000
  let gst := brokerage * (cfg.GSTFeeBC : ℚ) / 100
  let total := brokerage + stt + gst + exchange + sebi
  { Brokerage := roundToDecimal brokerage 4
    STT := roundToDecimal stt 4
    GST := roundToDecimal gst 4
    Exchange := roundToDecimal exchange 4
    SEBI := roundToDecimal sebi 4
    Total := roundToDecimal total 4 }

-- Sanity: gross 8750, schedule 5/25/3/1 bp, GST 18%; the five components
-- are 4.375, 21.875, 0.7875, 2.625, 0.875 and their sum is 30.5375.
example :
    calculateFees ⟨5, 25, 18, 3, 1⟩ 8750 =
      ⟨43750/10000, 218750/10000, 7875/10000, 26250/10000, 8750/10000, 305375/10000⟩ := by
  norm_num [calculateFees, roundToDecimal, goTrunc, multiplierLoop, Fees.mk.injEq]

/-- Model of `RewardRequest` from internal/services/services.go (timestamp field
`RewardedAt` not modelled; no claim depends on it). -/
structure RewardRequest where
  IdempotencyKey : String
  UserID : String
  StockSymbol : String
  SharesQuantity : ℚ
  Reason : String
  Metadata : String
deriving DecidableEq

/-- Model of `models.RewardEvent` (timestamps not modelled). -/
structure RewardEvent where
  id : ℤ
  IdempotencyKey : String
  UserID : String
  StockSymbol : String
  SharesQuantity : ℚ
  PricePerShare : ℚ
  TotalValue : ℚ
  BrokerageFee : ℚ
  STTFee : ℚ
  GSTFee : ℚ
  ExchangeFee : ℚ
  SEBIFee : ℚ
  TotalFees : ℚ
  TotalCost : ℚ
  Reason : String
  Metadata : String
deriving DecidableEq

/-- Model of `models.UserHolding` (id and timestamp not modelled). -/
structure UserHolding where
  UserID : String
  StockSymbol : String
  TotalShares : ℚ
  AveragePrice : ℚ
deriving DecidableEq

/-- Model of `models.Stock` (timestamps, id, exchange not modelled). -/
structure Stock where
  Symbol : String
  CompanyName : String
  IsActive : Bool
deriving DecidableEq

/-- Model of `models.LedgerEntry` (timestamp and free-text description not
modelled; no claim depends on them). -/
structure LedgerEntry where
  EntryGroupID : String
  RewardEventID : ℤ
  AccountType : String
  StockSymbol : Option String
  DebitAmount : ℚ
  CreditAmount : ℚ
deriving DecidableEq

/-- Model of `GetRewardEventByIdempotencyKey`: lookup of a reward event by its
idempotency key in the `reward_events` table (the key is UNIQUE). -/
def findByKey (events : List RewardEvent) (key : String) : Option RewardEvent :=
  events.find? (fun e => e.IdempotencyKey == key)

/-- Model of `GetUserHolding`: lookup of the row for (user_id, stock_symbol) in
`user_holdings` (the pair is UNIQUE). -/
def findHolding (hs : List UserHolding) (u s : String) : Option UserHolding :=
  hs.find? (fun h => h.UserID == u && h.StockSymbol == s)

/-- The effect of `INSERT ... ON CONFLICT (user_id, stock_symbol) DO UPDATE`
on the `user_holdings` table: replace the matching row if one exists,
otherwise append the new row. -/
def putHolding (hs : List UserHolding) (h : UserHolding) : List UserHolding :=
  if hs.any (fun x => x.UserID == h.UserID && x.StockSymbol == h.StockSymbol) then
    hs.map (fun x => if x.UserID == h.UserID && x.StockSymbol == h.StockSymbol then h else x)
  else hs ++ [h]

/-- Model of `UpsertUserHolding` from the repository combined with the schema
`CHECK (total_shares >= 0)` on `user_holdings`
(migrations/001_initial_schema.sql): a write whose total_shares is
negative fails and leaves the table unchanged. -/
def upsertUserHolding (hs : List UserHolding) (h : UserHolding) :
    Except Unit (List UserHolding) :=
  if h.TotalShares < 0 then .error () else .ok (putHolding hs h)

/-- Model of `updateUserHoldings` from internal/services/services.go: create the
position on first grant, otherwise weighted-average update.  (In the Go
code the divisor `newShares` can be 0, giving a float ±Inf/NaN; in ℚ the
division then yields 0.  No claim inspects the average at divisor 0.) -/
def updateUserHoldings (hs : List UserHolding) (ev : RewardEvent) :
    Except Unit (List UserHolding) :=
  match findHolding hs ev.UserID ev.StockSymbol with
  | none =>
      upsertUserHolding hs
        ⟨ev.UserID, ev.StockSymbol, ev.SharesQuantity, ev.PricePerShare⟩
  | some holding =>
      let totalCost := holding.TotalShares * holding.AveragePrice +
        ev.SharesQuantity * ev.PricePerShare
      let newShares := holding.TotalShares + ev.SharesQuantity
      upsertUserHolding hs ⟨ev.UserID, ev.StockSymbol, newShares, totalCost / newShares⟩

/-- A sequence of grants/reversals applied through the holdings update;
a rejected update leaves the state unchanged (the insert error is logged
by the caller and processing continues). -/
def applyGrants (hs : List UserHolding) (evs : List RewardEvent) : List UserHolding :=
  evs.foldl
    (fun s ev =>
      match updateUserHoldings s ev with
      | .ok s' => s'
      | .error _ => s)
    hs

/-- Model of `fmt.Sprintf("reward-%d", event.ID)` — the posting group id. -/
def entryGroupID (ev : RewardEvent) : String := "reward-" ++ toString ev.id

/-- Model of `createLedgerEntries` from internal/services/services.go: the four
postings constructed for one reward event. -/
def createLedgerEntries (ev : RewardEvent) : List LedgerEntry :=
  [ ⟨entryGroupID ev, ev.id, "stock_inventory", some ev.StockSymbol, ev.TotalValue, 0⟩,
    ⟨entryGroupID ev, ev.id, "cash_outflow", none, 0, ev.TotalValue⟩,
    ⟨entryGroupID ev, ev.id, "fees_expense", none, ev.TotalFees, 0⟩,
    ⟨entryGroupID ev, ev.id, "cash_outflow", none, 0, ev.TotalFees⟩ ]

/-- The schema CHECK on `ledger_entries`: exactly one of debit/credit
strictly positive, the other zero. -/
def ledgerRowOk (e : LedgerEntry) : Prop :=
  (0 < e.DebitAmount ∧ e.CreditAmount = 0) ∨ (0 < e.CreditAmount ∧ e.DebitAmount = 0)

instance (e : LedgerEntry) : Decidable (ledgerRowOk e) := by
  unfold ledgerRowOk; infer_instance

/-- Stored state touched by reward creation: the `reward_events`,
`user_holdings` and `ledger_entries` tables plus the serial id counter. -/
structure DB where
  rewardEvents : List RewardEvent
  holdings : List UserHolding
  ledger : List LedgerEntry
  nextId : ℤ
deriving DecidableEq

/-- How `CreateRewardEvent` can fail: the idempotency-key uniqueness
constraint (a concurrent insert committed between the check and the
insert), or any other storage error. -/
inductive InsertFault where
  | uniqueViolation
  | otherError
deriving DecidableEq

/-- Collaborators of the reward service (stock lookup, price oracle, fee
configuration) plus fault injection for the storage steps, which lets the
theorems quantify over storage failures the Go code handles. -/
structure Env where
  stocks : String → Option Stock
  price : String → Option ℚ
  feesConfig : FeesConfig
  lookupFault : Bool
  insertFault : Option InsertFault
  holdingsFault : Bool
  ledgerFault : Bool

/-- The error paths of `CreateReward` (each corresponds to one
`return nil, fmt.Errorf(...)` in the Go function). -/
inductive CreateRewardError where
  | idempotencyCheckFailed
  | invalidStockSymbol
  | stockNotActive
  | priceUnavailable
  | createRewardEventFailed
deriving DecidableEq

/-- Model of `CreateReward` from internal/services/services.go (the reward service
method; the spec calls it grantReward).  Returns the caller-visible result
together with the stored state after the call. -/
def CreateReward (env : Env) (req : RewardRequest) (db : DB) :
    Except CreateRewardError RewardEvent × DB :=
  if env.lookupFault then (.error .idempotencyCheckFailed, db) else
  match findByKey db.rewardEvents req.IdempotencyKey with
  | some existingEvent => (.ok existingEvent, db)
  | none =>
    match env.stocks req.StockSymbol with
    | none => (.error .invalidStockSymbol, db)
    | some stock =>
      if ¬ stock.IsActive then (.error .stockNotActive, db) else
      match env.price req.StockSymbol with
      | none => (.error .priceUnavailable, db)
      | some currentPrice =>
        let totalValue := req.SharesQuantity * currentPrice
        let fees := calculateFees env.feesConfig totalValue
        let event : RewardEvent :=
          { id := db.nextId
            IdempotencyKey := req.IdempotencyKey
            UserID := req.UserID
            StockSymbol := req.StockSymbol
            SharesQuantity := req.SharesQuantity
            PricePerShare := currentPrice
            TotalValue := totalValue
            BrokerageFee := fees.Brokerage
            STTFee := fees.STT
            GSTFee := fees.GST
            ExchangeFee := fees.Exchange
            SEBIFee := fees.SEBI
            TotalFees := fees.Total
            TotalCost := totalValue + fees.Total
            Reason := req.Reason
            Metadata := req.Metadata }
        match env.insertFault with
        | some _ => (.error .createRewardEventFailed, db)
        | none =>
          let db1 : DB :=
            { db with rewardEvents := db.rewardEvents ++ [event], nextId := db.nextId + 1 }
          let db2 : DB :=
            if env.holdingsFault then db1 else
              match updateUserHoldings db1.holdings event with
              | .ok hs => { db1 with holdings := hs }
              | .error _ => db1
          let entries := createLedgerEntries event
          let db3 : DB :=
            if env.ledgerFault = false ∧ ∀ e ∈ entries, ledgerRowOk e then
              { db2 with ledger := db2.ledger ++ entries }
            else db2
          (.ok event, db3)

/-- What the HTTP layer returns when it rejects or fails a request. -/
inductive HandlerError where
  | badRequest
  | internalError (err : CreateRewardError)
deriving DecidableEq

/-- The gin binding tags on `RewardRequest`
(`binding:"required"` on the three identifier strings — a zero value, the
empty string, fails validation — and `binding:"required,gt=0"` on
SharesQuantity — zero fails `required`, negatives fail `gt=0`). -/
def validRewardRequest (req : RewardRequest) : Prop :=
  req.IdempotencyKey ≠ "" ∧ req.UserID ≠ "" ∧ req.StockSymbol ≠ "" ∧
    0 < req.SharesQuantity

instance (req : RewardRequest) : Decidable (validRewardRequest req) := by
  unfold validRewardRequest; infer_instance

/-- The `CreateReward` HTTP handler from internal/handlers/handlers.go:
`ShouldBindJSON` enforces the binding tags before the service runs; a
binding failure returns 400 with no service call. -/
def handleCreateReward (env : Env) (req : RewardRequest) (db : DB) :
    Except HandlerError RewardEvent × DB :=
  if validRewardRequest req then
    match CreateReward env req db with
    | (.ok e, db') => (.ok e, db')
    | (.error err, db') => (.error (.internalError err), db')
  else (.error .badRequest, db)

/-- Model of `models.PortfolioItem`. -/
structure PortfolioItem where
  StockSymbol : String
  CompanyName : String
  TotalShares : ℚ
  AveragePrice : ℚ
  CurrentPrice : ℚ
  CurrentValue : ℚ
  TotalCost : ℚ
  ProfitLoss : ℚ
  ProfitLossPct : ℚ
deriving DecidableEq

/-- The loop body of `GetUserPortfolio` for one holding.  `prices` models
the Go map returned by `GetAllCurrentPrices` together with the Go map
semantics: an absent symbol reads as 0. -/
def portfolioItem (prices : String → ℚ) (stocks : String → Option Stock)
    (holding : UserHolding) : PortfolioItem :=
  let looked := prices holding.StockSymbol
  let currentPrice := if looked = 0 then holding.AveragePrice else looked
  let currentValue := holding.TotalShares * currentPrice
  let totalCost := holding.TotalShares * holding.AveragePrice
  let profitLoss := currentValue - totalCost
  let profitLossPct := if 0 < totalCost then profitLoss / totalCost * 100 else 0
  let companyName :=
    match stocks holding.StockSymbol with
    | some stock => stock.CompanyName
    | none => holding.StockSymbol
  { StockSymbol := holding.StockSymbol
    CompanyName := companyName
    TotalShares := roundToDecimal holding.TotalShares 6
    AveragePrice := roundToDecimal holding.AveragePrice 2
    CurrentPrice := roundToDecimal currentPrice 2
    CurrentValue := roundToDecimal currentValue 2
    TotalCost := roundToDecimal totalCost 2
    ProfitLoss := roundToDecimal profitLoss 2
    ProfitLossPct := roundToDecimal profitLossPct 2 }

/-- Model of `GetUserPortfolio` from internal/services/services.go, as a function
of the holdings fetched for the user and the current-price map. -/
def GetUserPortfolio (prices : String → ℚ) (stocks : String → Option Stock)
    (holdings : List UserHolding) : List PortfolioItem :=
  holdings.map (portfolioItem prices stocks)

/-! Concrete fixtures used to instantiate the theorems (witnesses and
counterexamples).  The fee schedule 5/25/18/3/1 is the configuration
default from internal/config/config.go. -/

/-- An active stock, as seeded by the migration (`stocks` table). -/
def stockTCS : Stock := ⟨"TCS", "Tata Consultancy Services Limited", true⟩

/-- A healthy collaborator environment: TCS exists and is active, its
price is 100, the default fee schedule, and no storage faults. -/
def envOK : Env :=
  { stocks := fun s => if s = "TCS" then some stockTCS else none
    price := fun s => if s = "TCS" then some 100 else none
    feesConfig := ⟨5, 25, 18, 3, 1⟩
    lookupFault := false
    insertFault := none
    holdingsFault := false
    ledgerFault := false }

/-- Empty stored state. -/
def dbEmpty : DB := ⟨[], [], [], 1⟩

/-- A well-formed request for one TCS share. -/
def reqTCS : RewardRequest := ⟨"key-1", "alice", "TCS", 1, "onboarding", ""⟩

/-- A reward event already persisted under the key of `reqTCS`. -/
def storedEvent : RewardEvent :=
  ⟨7, "key-1", "bob", "TCS", 2, 95, 190, 1, 1, 1, 1, 1, 5, 195, "referral", ""⟩

/-- Stored state already holding `storedEvent`. -/
def dbWithStored : DB := ⟨[storedEvent], [], [], 8⟩

/-- A grant of 5 INFY units at 1500 (only the fields read by the holdings
update matter). -/
def evInfy1 : RewardEvent :=
  ⟨1, "r1", "u1", "INFY", 5, 1500, 7500, 0, 0, 0, 0, 0, 0, 7500, "", ""⟩

/-- A grant of 3 INFY units at 1600. -/
def evInfy2 : RewardEvent :=
  ⟨2, "r2", "u1", "INFY", 3, 1600, 4800, 0, 0, 0, 0, 0, 0, 4800, "", ""⟩

/-- A reversal of 2 INFY units (negative quantity). -/
def evInfyRev : RewardEvent :=
  ⟨3, "r3", "u1", "INFY", -2, 1500, -3000, 0, 0, 0, 0, 0, 0, -3000, "", ""⟩

/-- A tiny grant: 0.000001 TCS shares.  At price 100 the gross value is
0.0001 and every fee component rounds to zero. -/
def reqTiny : RewardRequest := ⟨"key-tiny", "alice", "TCS", 1/1000000, "", ""⟩

/-- The reward event `CreateReward envOK reqTiny dbEmpty` persists:
gross value 0.0001, all fees rounded to 0. -/
def tinyEvent : RewardEvent :=
  ⟨1, "key-tiny", "alice", "TCS", 1/1000000, 100, 1/10000,
    0, 0, 0, 0, 0, 0, 1/10000, "", ""⟩

/-- A request with negative quantity, rejected by the gin binding. -/
def reqNeg : RewardRequest := ⟨"key-neg", "alice", "TCS", -1, "", ""⟩

/-- Variant of `envOK` with the holdings-update step failing. -/
def envHoldFail : Env := { envOK with holdingsFault := true }

/-- A holding used to exercise the portfolio price fallback. -/
def holdingInfy : UserHolding := ⟨"u1", "INFY", 5, 1500⟩

/-! ## Helper lemmas -/

theorem multiplierLoop_eq_pow (d : ℕ) : multiplierLoop d = 10 ^ d := by
  induction d with
  | zero => simp [multiplierLoop]
  | succ n ih => simp [multiplierLoop, ih, pow_succ]

theorem multiplierLoop_pos (d : ℕ) : 0 < multiplierLoop d := by
  rw [multiplierLoop_eq_pow]; positivity

theorem roundToDecimal_zero (d : ℕ) : roundToDecimal 0 d = 0 := by
  have h : ⌊(1/2 : ℚ)⌋ = 0 := by norm_num
  simp [roundToDecimal, goTrunc, h]
  exact Or.inl (by norm_num)

/-! ## C1 — idempotent replay -/

/-- C1: for a request whose idempotency key already has a persisted
record, `CreateReward` returns that record verbatim and the stored state
is unchanged — no validation, pricing, fee computation, insert, holdings
mutation or ledger posting happens. -/
theorem CreateReward_replay (env : Env) (req : RewardRequest) (db : DB)
    (e : RewardEvent) (hlf : env.lookupFault = false)
    (hfind : findByKey db.rewardEvents req.IdempotencyKey = some e) :
    CreateReward env req db = (.ok e, db) := by
  simp [CreateReward, hlf, hfind]

/-- Witness for C1 at a concrete stored record and duplicate request. -/
theorem CreateReward_replay_witness :
    envOK.lookupFault = false ∧
    findByKey dbWithStored.rewardEvents reqTCS.IdempotencyKey = some storedEvent ∧
    CreateReward envOK reqTCS dbWithStored = (.ok storedEvent, dbWithStored) :=
  ⟨rfl, by simp [findByKey, dbWithStored, storedEvent, reqTCS],
    CreateReward_replay envOK reqTCS dbWithStored storedEvent rfl
      (by simp [findByKey, dbWithStored, storedEvent, reqTCS])⟩

/-! ## C7 — input validation before persistence -/

/-- C7: a request with non-positive quantity or an empty userId,
stockSymbol or idempotencyKey is rejected by the binding validation before
the service runs: no record, holding or ledger posting is written and the
stored state is returned unchanged. -/
theorem handleCreateReward_rejects_invalid (env : Env) (req : RewardRequest)
    (db : DB)
    (h : req.SharesQuantity ≤ 0 ∨ req.UserID = "" ∨ req.StockSymbol = "" ∨
      req.IdempotencyKey = "") :
    handleCreateReward env req db = (.error .badRequest, db) := by
  have hnv : ¬ validRewardRequest req := by
    intro hv
    obtain ⟨hk, hu, hsym, hq⟩ := hv
    rcases h with h | h | h | h
    · exact absurd hq (not_lt.mpr h)
    · exact hu h
    · exact hsym h
    · exact hk h
  simp [handleCreateReward, hnv]

/-- Witness for C7 at a concrete negative-quantity request. -/
theorem handleCreateReward_rejects_invalid_witness :
    reqNeg.SharesQuantity ≤ 0 ∧
    handleCreateReward envOK reqNeg dbEmpty = (.error .badRequest, dbEmpty) :=
  ⟨by norm_num [reqNeg],
    handleCreateReward_rejects_invalid envOK reqNeg dbEmpty
      (Or.inl (by norm_num [reqNeg]))⟩

/-! ## C8 — post-persistence failures do not fail the grant -/

/-- C8: when the record insert succeeds but the holdings update or the
ledger posting step fails, `CreateReward` still returns the persisted
record as a success, and the record is in the store. -/
theorem CreateReward_postPersistFail_success (env : Env) (req : RewardRequest)
    (db : DB) (stock : Stock) (price : ℚ)
    (hlf : env.lookupFault = false)
    (hfind : findByKey db.rewardEvents req.IdempotencyKey = none)
    (hstock : env.stocks req.StockSymbol = some stock)
    (hactive : stock.IsActive = true)
    (hprice : env.price req.StockSymbol = some price)
    (hins : env.insertFault = none)
    (_hfail : env.holdingsFault = true ∨ env.ledgerFault = true) :
    ∃ e, (CreateReward env req db).1 = .ok e ∧
      e ∈ (CreateReward env req db).2.rewardEvents := by
  simp [CreateReward, hlf, hfind, hstock, hactive, hprice, hins,
    apply_ite DB.rewardEvents]
  split <;> try split
  all_goals simp

/-- Witness for C8: healthy environment except the holdings step fails. -/
theorem CreateReward_postPersistFail_success_witness :
    (envHoldFail.holdingsFault = true ∨ envHoldFail.ledgerFault = true) ∧
    (∃ e, (CreateReward envHoldFail reqTCS dbEmpty).1 = .ok e ∧
      e ∈ (CreateReward envHoldFail reqTCS dbEmpty).2.rewardEvents) :=
  ⟨Or.inl rfl,
    CreateReward_postPersistFail_success envHoldFail reqTCS dbEmpty stockTCS 100
      rfl rfl (by simp [envHoldFail, envOK, reqTCS]) rfl
      (by simp [envHoldFail, envOK, reqTCS]) rfl (Or.inl rfl)⟩

/-! ## C10 — portfolio price fallback -/

/-- C10: in `GetUserPortfolio`, a holding whose symbol reads price 0 from
the current-price map (absent symbols read as 0) uses the stored average
price as the current price, so its item has CurrentValue = TotalCost and
ProfitLoss = ProfitLossPct = 0. -/
theorem GetUserPortfolio_price_fallback (prices : String → ℚ)
    (stocks : String → Option Stock) (h : UserHolding) (hs : List UserHolding)
    (hmem : h ∈ hs) (hzero : prices h.StockSymbol = 0) :
    portfolioItem prices stocks h ∈ GetUserPortfolio prices stocks hs ∧
    (portfolioItem prices stocks h).CurrentPrice = roundToDecimal h.AveragePrice 2 ∧
    (portfolioItem prices stocks h).CurrentValue = (portfolioItem prices stocks h).TotalCost ∧
    (portfolioItem prices stocks h).ProfitLoss = 0 ∧
    (portfolioItem prices stocks h).ProfitLossPct = 0 := by
  refine ⟨List.mem_map_of_mem _ hmem, ?_, ?_, ?_, ?_⟩ <;>
    simp [portfolioItem, hzero, roundToDecimal_zero]

/-- Witness for C10: a single INFY holding and an empty price map. -/
theorem GetUserPortfolio_price_fallback_witness :
    holdingInfy ∈ [holdingInfy] ∧ (fun _ : String => (0 : ℚ)) holdingInfy.StockSymbol = 0 ∧
    (portfolioItem (fun _ => 0) (fun _ => none) holdingInfy ∈
      GetUserPortfolio (fun _ => 0) (fun _ => none) [holdingInfy] ∧
    (portfolioItem (fun _ => 0) (fun _ => none) holdingInfy).CurrentPrice =
      roundToDecimal holdingInfy.AveragePrice 2 ∧
    (portfolioItem (fun _ => 0) (fun _ => none) holdingInfy).CurrentValue =
      (portfolioItem (fun _ => 0) (fun _ => none) holdingInfy).TotalCost ∧
    (portfolioItem (fun _ => 0) (fun _ => none) holdingInfy).ProfitLoss = 0 ∧
    (portfolioItem (fun _ => 0) (fun _ => none) holdingInfy).ProfitLossPct = 0) :=
  ⟨List.mem_singleton_self _, rfl,
    GetUserPortfolio_price_fallback (fun _ => 0) (fun _ => none) holdingInfy
      [holdingInfy] (List.mem_singleton_self _) rfl⟩

/-! ## Holdings lemmas -/

theorem mem_putHolding {hs : List UserHolding} {h x : UserHolding}
    (hx : x ∈ putHolding hs h) : x = h ∨ x ∈ hs := by
  unfold putHolding at hx
  split at hx
  · obtain ⟨y, hy, hxy⟩ := List.mem_map.mp hx
    by_cases hc : (y.UserID == h.UserID && y.StockSymbol == h.StockSymbol) = true
    · rw [if_pos hc] at hxy
      exact Or.inl hxy.symm
    · rw [if_neg hc] at hxy
      exact Or.inr (hxy ▸ hy)
  · rcases List.mem_append.mp hx with h1 | h1
    · exact Or.inr h1
    · exact Or.inl (List.mem_singleton.mp h1)

theorem upsertUserHolding_ok_nonneg {hs hs' : List UserHolding} {h0 : UserHolding}
    (hok : upsertUserHolding hs h0 = .ok hs')
    (hnn : ∀ h ∈ hs, 0 ≤ h.TotalShares) : ∀ h ∈ hs', 0 ≤ h.TotalShares := by
  unfold upsertUserHolding at hok
  split at hok
  · cases hok
  · rename_i hge
    injection hok with he
    subst he
    intro h hm
    rcases mem_putHolding hm with rfl | hmem
    · exact not_lt.mp hge
    · exact hnn _ hmem

theorem updateUserHoldings_ok_nonneg {hs hs' : List UserHolding} {ev : RewardEvent}
    (hok : updateUserHoldings hs ev = .ok hs')
    (hnn : ∀ h ∈ hs, 0 ≤ h.TotalShares) : ∀ h ∈ hs', 0 ≤ h.TotalShares := by
  unfold updateUserHoldings at hok
  rcases hf : findHolding hs ev.UserID ev.StockSymbol with _ | holding <;>
    rw [hf] at hok <;> exact upsertUserHolding_ok_nonneg hok hnn

theorem applyGrants_cons (hs : List UserHolding) (ev : RewardEvent)
    (evs : List RewardEvent) :
    applyGrants hs (ev :: evs) =
      applyGrants
        (match updateUserHoldings hs ev with
          | .ok s' => s'
          | .error _ => hs) evs := rfl

theorem applyGrants_nonneg (evs : List RewardEvent) :
    ∀ hs : List UserHolding, (∀ h ∈ hs, 0 ≤ h.TotalShares) →
      ∀ h ∈ applyGrants hs evs, 0 ≤ h.TotalShares := by
  induction evs with
  | nil =>
      intro hs hnn
      simpa [applyGrants] using hnn
  | cons ev evs ih =>
      intro hs hnn
      rw [applyGrants_cons]
      rcases hup : updateUserHoldings hs ev with e | hs'
      · exact ih hs hnn
      · exact ih hs' (updateUserHoldings_ok_nonneg hup hnn)

theorem findHolding_putHolding (hs : List UserHolding) (h : UserHolding) :
    findHolding (putHolding hs h) h.UserID h.StockSymbol = some h := by
  have hself : (h.UserID == h.UserID && h.StockSymbol == h.StockSymbol) = true := by simp
  unfold putHolding findHolding
  split
  · rename_i hany
    rw [List.find?_map]
    have hcomp :
        ((fun y : UserHolding => y.UserID == h.UserID && y.StockSymbol == h.StockSymbol) ∘
          (fun x : UserHolding =>
            if x.UserID == h.UserID && x.StockSymbol == h.StockSymbol then h else x)) =
        (fun y : UserHolding => y.UserID == h.UserID && y.StockSymbol == h.StockSymbol) := by
      funext y
      by_cases hy : (y.UserID == h.UserID && y.StockSymbol == h.StockSymbol) = true
      · simp only [Function.comp_apply, if_pos hy]
        exact hself.trans hy.symm
      · simp only [Function.comp_apply, if_neg hy]
    rw [hcomp]
    have hsome : ∃ y, hs.find?
        (fun y => y.UserID == h.UserID && y.StockSymbol == h.StockSymbol) = some y := by
      have := List.find?_isSome.mpr (List.any_eq_true.mp hany)
      exact Option.isSome_iff_exists.mp this
    obtain ⟨y, hy⟩ := hsome
    rw [hy]
    have hpy := List.find?_some hy
    simp only [Option.map_some']
    rw [if_pos hpy]
  · rename_i hany
    rw [List.find?_append]
    have hnone : hs.find?
        (fun y => y.UserID == h.UserID && y.StockSymbol == h.StockSymbol) = none := by
      rw [List.find?_eq_none]
      intro x hx hpx
      exact hany (List.any_eq_true.mpr ⟨x, hx, hpx⟩)
    rw [hnone]
    simp [List.find?_cons, hself]

/-! ## C3 — weighted-average holdings update -/

/-- C3: with no existing position the created row has
totalShares = quantity and averagePrice = price; with an existing
position, totalShares becomes old + quantity and averagePrice the
weighted average; and concretely, 5 units at 1500 then 3 units at 1600
starting from nothing yield 8 shares at average 1537.50. -/
theorem updateUserHoldings_weightedAverage (hs : List UserHolding)
    (ev : RewardEvent) :
    (findHolding hs ev.UserID ev.StockSymbol = none → 0 ≤ ev.SharesQuantity →
      ∃ hs', updateUserHoldings hs ev = .ok hs' ∧
        findHolding hs' ev.UserID ev.StockSymbol =
          some ⟨ev.UserID, ev.StockSymbol, ev.SharesQuantity, ev.PricePerShare⟩) ∧
    (∀ holding, findHolding hs ev.UserID ev.StockSymbol = some holding →
      0 ≤ holding.TotalShares + ev.SharesQuantity →
      ∃ hs', updateUserHoldings hs ev = .ok hs' ∧
        findHolding hs' ev.UserID ev.StockSymbol =
          some ⟨ev.UserID, ev.StockSymbol,
            holding.TotalShares + ev.SharesQuantity,
            (holding.TotalShares * holding.AveragePrice +
              ev.SharesQuantity * ev.PricePerShare) /
              (holding.TotalShares + ev.SharesQuantity)⟩) ∧
    findHolding (applyGrants [] [evInfy1, evInfy2]) "u1" "INFY" =
      some ⟨"u1", "INFY", 8, 3075/2⟩ := by
  refine ⟨?_, ?_, ?_⟩
  · intro hf hq
    refine ⟨_, ?_, findHolding_putHolding hs
      ⟨ev.UserID, ev.StockSymbol, ev.SharesQuantity, ev.PricePerShare⟩⟩
    simp only [updateUserHoldings, hf, upsertUserHolding]
    rw [if_neg (not_lt.mpr hq)]
  · intro holding hf hq
    refine ⟨_, ?_, findHolding_putHolding hs
      ⟨ev.UserID, ev.StockSymbol, holding.TotalShares + ev.SharesQuantity,
        (holding.TotalShares * holding.AveragePrice +
          ev.SharesQuantity * ev.PricePerShare) /
          (holding.TotalShares + ev.SharesQuantity)⟩⟩
    simp only [updateUserHoldings, hf, upsertUserHolding]
    rw [if_neg (not_lt.mpr hq)]
  · norm_num [applyGrants, updateUserHoldings, findHolding, upsertUserHolding,
      putHolding, evInfy1, evInfy2]

/-- Witness for C3: the first INFY grant on an empty store creates the
position with exactly the granted quantity and price. -/
theorem updateUserHoldings_weightedAverage_witness :
    ∃ hs', updateUserHoldings [] evInfy1 = .ok hs' ∧
      findHolding hs' evInfy1.UserID evInfy1.StockSymbol =
        some ⟨evInfy1.UserID, evInfy1.StockSymbol,
          evInfy1.SharesQuantity, evInfy1.PricePerShare⟩ :=
  (updateUserHoldings_weightedAverage [] evInfy1).1 rfl (by norm_num [evInfy1])

/-! ## C5 — totalShares never negative; violating reversals rejected -/

/-- A holding of one INFY unit (for the C5 witness). -/
def holdingOne : UserHolding := ⟨"u1", "INFY", 1, 1500⟩

/-- C5: starting from nonnegative holdings, any sequence of grants and
reversals applied through the holdings update keeps every totalShares
nonnegative; a reversal that would drive the totalShares of a position below
zero makes the update fail (the schema check rejects the write), and a
failing update leaves the holdings unchanged. -/
theorem holdings_nonneg (hs : List UserHolding) (evs : List RewardEvent)
    (hnn : ∀ h ∈ hs, 0 ≤ h.TotalShares) :
    (∀ h ∈ applyGrants hs evs, 0 ≤ h.TotalShares) ∧
    (∀ ev holding, findHolding hs ev.UserID ev.StockSymbol = some holding →
      holding.TotalShares + ev.SharesQuantity < 0 →
      updateUserHoldings hs ev = .error ()) ∧
    (∀ ev, updateUserHoldings hs ev = .error () → applyGrants hs [ev] = hs) := by
  refine ⟨applyGrants_nonneg evs hs hnn, ?_, ?_⟩
  · intro ev holding hf hlt
    simp only [updateUserHoldings, hf, upsertUserHolding]
    rw [if_pos hlt]
  · intro ev he
    rw [applyGrants_cons, he]
    rfl

/-- Witness for C5: a reversal of 2 units against a 1-unit position is
rejected and the state survives unchanged. -/
theorem holdings_nonneg_witness :
    (∀ h ∈ [holdingOne], 0 ≤ h.TotalShares) ∧
    ((∀ h ∈ applyGrants [holdingOne] [evInfyRev], 0 ≤ h.TotalShares) ∧
      (∀ ev holding,
        findHolding [holdingOne] ev.UserID ev.StockSymbol = some holding →
        holding.TotalShares + ev.SharesQuantity < 0 →
        updateUserHoldings [holdingOne] ev = .error ()) ∧
      (∀ ev, updateUserHoldings [holdingOne] ev = .error () →
        applyGrants [holdingOne] [ev] = [holdingOne])) :=
  ⟨by norm_num [holdingOne],
    holdings_nonneg [holdingOne] [evInfyRev] (by norm_num [holdingOne])⟩

/-! ## Rounding lemmas -/

theorem roundToDecimal_eq_half_away (v : ℚ) (d : ℕ) (hv : 0 ≤ v) :
    roundToDecimal v d = roundHalfAwayFromZero v d := by
  unfold roundToDecimal roundHalfAwayFromZero goTrunc
  rw [multiplierLoop_eq_pow]
  have harg : (0:ℚ) ≤ v * 10 ^ d + 1/2 := by positivity
  dsimp only
  rw [if_pos harg, if_pos hv]

/-! ## C9 — rounding mode of `roundToDecimal` -/

/-- C9: at negative inputs `roundToDecimal` diverges from the
round-half-away-from-zero rule the spec states and ARCHITECTURE.md
documents (`math.Round`), and it is not idempotent: −0.00005 rounds to 0
instead of −0.0001, and the already-4-digit value −0.0002 (itself the
output of the code for −0.0003) re-rounds to −0.0001. -/
theorem roundToDecimal_negative_divergence :
    roundToDecimal (-(1/20000)) 4 = 0 ∧
    roundHalfAwayFromZero (-(1/20000)) 4 = -(1/10000) ∧
    roundToDecimal (-(3/10000)) 4 = -(2/10000) ∧
    roundToDecimal (roundToDecimal (-(3/10000)) 4) 4 = -(1/10000) := by
  norm_num [roundToDecimal, roundHalfAwayFromZero, goTrunc, multiplierLoop]

/-! ## C2 — fee calculator -/

/-- C2 counterexample: with schedule (1 bp, 1 bp, GST 100 %, 1 bp, 1 bp)
and gross value 0.5, every component rounds to 0.0001 and the rounded
components re-summed and rounded give 0.0005, but the totalFees of the code is
0.0003 — the rounding of the unrounded sum 0.00025 — so totalFees is not
the sum of the five rounded components. -/
theorem calculateFees_total_counterexample :
    (calculateFees ⟨1, 1, 100, 1, 1⟩ (1/2)).Brokerage = 1/10000 ∧
    (calculateFees ⟨1, 1, 100, 1, 1⟩ (1/2)).STT = 1/10000 ∧
    (calculateFees ⟨1, 1, 100, 1, 1⟩ (1/2)).GST = 1/10000 ∧
    (calculateFees ⟨1, 1, 100, 1, 1⟩ (1/2)).Exchange = 1/10000 ∧
    (calculateFees ⟨1, 1, 100, 1, 1⟩ (1/2)).SEBI = 1/10000 ∧
    (calculateFees ⟨1, 1, 100, 1, 1⟩ (1/2)).Total = 3/10000 ∧
    (calculateFees ⟨1, 1, 100, 1, 1⟩ (1/2)).Total ≠
      roundToDecimal
        ((calculateFees ⟨1, 1, 100, 1, 1⟩ (1/2)).Brokerage +
          (calculateFees ⟨1, 1, 100, 1, 1⟩ (1/2)).STT +
          (calculateFees ⟨1, 1, 100, 1, 1⟩ (1/2)).GST +
          (calculateFees ⟨1, 1, 100, 1, 1⟩ (1/2)).Exchange +
          (calculateFees ⟨1, 1, 100, 1, 1⟩ (1/2)).SEBI) 4 := by
  norm_num [calculateFees, roundToDecimal, goTrunc, multiplierLoop]

/-- Amended C2: for nonnegative gross value and rates, each basis-point
component is grossValue×rate/10000 rounded to 4 digits and GST is the
unrounded brokerage ×taxRate/100 rounded to 4 digits (half-up, which on
these nonnegative values is the half-away-from-zero of the spec), while
totalFees is the UNROUNDED sum of the five components rounded to 4 digits
— not the sum of the rounded components; and the calculator is a pure
function: equal inputs give the equal FeeBreakdown. -/
theorem calculateFees_amended (cfg : FeesConfig) (g : ℚ)
    (hg : 0 ≤ g) (hb : 0 ≤ cfg.BrokerageFeeBC) (hstt : 0 ≤ cfg.STTFeeBC)
    (hgst : 0 ≤ cfg.GSTFeeBC) (hex : 0 ≤ cfg.ExchangeFeeBC)
    (hse : 0 ≤ cfg.SEBIFeeBC) :
    (calculateFees cfg g =
      { Brokerage := roundHalfAwayFromZero (g * (cfg.BrokerageFeeBC : ℚ) / 10000) 4
        STT := roundHalfAwayFromZero (g * (cfg.STTFeeBC : ℚ) / 10000) 4
        GST := roundHalfAwayFromZero
          (g * (cfg.BrokerageFeeBC : ℚ) / 10000 * (cfg.GSTFeeBC : ℚ) / 100) 4
        Exchange := roundHalfAwayFromZero (g * (cfg.ExchangeFeeBC : ℚ) / 10000) 4
        SEBI := roundHalfAwayFromZero (g * (cfg.SEBIFeeBC : ℚ) / 10000) 4
        Total := roundToDecimal
          (g * (cfg.BrokerageFeeBC : ℚ) / 10000 + g * (cfg.STTFeeBC : ℚ) / 10000 +
            g * (cfg.BrokerageFeeBC : ℚ) / 10000 * (cfg.GSTFeeBC : ℚ) / 100 +
            g * (cfg.ExchangeFeeBC : ℚ) / 10000 + g * (cfg.SEBIFeeBC : ℚ) / 10000) 4 }) ∧
    (∀ cfg' g', cfg' = cfg → g' = g → calculateFees cfg' g' = calculateFees cfg g) := by
  have hbq : (0:ℚ) ≤ (cfg.BrokerageFeeBC : ℚ) := by exact_mod_cast hb
  have hsttq : (0:ℚ) ≤ (cfg.STTFeeBC : ℚ) := by exact_mod_cast hstt
  have hgstq : (0:ℚ) ≤ (cfg.GSTFeeBC : ℚ) := by exact_mod_cast hgst
  have hexq : (0:ℚ) ≤ (cfg.ExchangeFeeBC : ℚ) := by exact_mod_cast hex
  have hseq : (0:ℚ) ≤ (cfg.SEBIFeeBC : ℚ) := by exact_mod_cast hse
  constructor
  · simp only [calculateFees, Fees.mk.injEq]
    refine ⟨?_, ?_, ?_, ?_, ?_, trivial⟩
    · exact roundToDecimal_eq_half_away _ 4 (by positivity)
    · exact roundToDecimal_eq_half_away _ 4 (by positivity)
    · exact roundToDecimal_eq_half_away _ 4 (by positivity)
    · exact roundToDecimal_eq_half_away _ 4 (by positivity)
    · exact roundToDecimal_eq_half_away _ 4 (by positivity)
  · intro cfg' g' hc hg'
    rw [hc, hg']

/-- Witness for the amended statement of C2 at the configuration default
schedule (5, 25, 18, 3, 1) and gross value 8750. -/
theorem calculateFees_amended_witness :
    calculateFees ⟨5, 25, 18, 3, 1⟩ 8750 =
      { Brokerage := roundHalfAwayFromZero (8750 * ((5:ℤ) : ℚ) / 10000) 4
        STT := roundHalfAwayFromZero (8750 * ((25:ℤ) : ℚ) / 10000) 4
        GST := roundHalfAwayFromZero
          (8750 * ((5:ℤ) : ℚ) / 10000 * ((18:ℤ) : ℚ) / 100) 4
        Exchange := roundHalfAwayFromZero (8750 * ((3:ℤ) : ℚ) / 10000) 4
        SEBI := roundHalfAwayFromZero (8750 * ((1:ℤ) : ℚ) / 10000) 4
        Total := roundToDecimal
          (8750 * ((5:ℤ) : ℚ) / 10000 + 8750 * ((25:ℤ) : ℚ) / 10000 +
            8750 * ((5:ℤ) : ℚ) / 10000 * ((18:ℤ) : ℚ) / 100 +
            8750 * ((3:ℤ) : ℚ) / 10000 + 8750 * ((1:ℤ) : ℚ) / 10000) 4 } :=
  (calculateFees_amended ⟨5, 25, 18, 3, 1⟩ 8750 (by norm_num) (by norm_num)
    (by norm_num) (by norm_num) (by norm_num) (by norm_num)).1

/-! ## C4 — ledger postings -/

/-- C4 counterexample: the tiny grant `reqTiny` is successfully created
(gross value 0.0001 > 0) with totalFees rounded to 0, and its constructed
fee posting has debit 0 AND credit 0 — not "exactly one strictly
positive".  (The schema CHECK would then reject the ledger insert, which
the service logs and ignores.) -/
theorem createLedgerEntries_zeroFees_counterexample :
    (CreateReward envOK reqTiny dbEmpty).1 = .ok tinyEvent ∧
    0 < tinyEvent.TotalValue ∧ tinyEvent.TotalFees = 0 ∧
    (createLedgerEntries tinyEvent).map LedgerEntry.DebitAmount =
      [1/10000, 0, 0, 0] ∧
    (createLedgerEntries tinyEvent).map LedgerEntry.CreditAmount =
      [0, 1/10000, 0, 0] ∧
    ¬ (∀ e ∈ createLedgerEntries tinyEvent, ledgerRowOk e) := by
  refine ⟨?_, by norm_num [tinyEvent], by norm_num [tinyEvent], ?_, ?_, ?_⟩
  · norm_num [CreateReward, envOK, reqTiny, dbEmpty, tinyEvent, stockTCS,
      findByKey, calculateFees, roundToDecimal, goTrunc, multiplierLoop,
      RewardEvent.mk.injEq]
  · norm_num [createLedgerEntries, tinyEvent]
  · norm_num [createLedgerEntries, tinyEvent]
  · intro hall
    have := hall ⟨entryGroupID tinyEvent, tinyEvent.id, "fees_expense", none,
      tinyEvent.TotalFees, 0⟩ (by simp [createLedgerEntries])
    rcases this with ⟨h1, _⟩ | ⟨h1, _⟩ <;> norm_num [tinyEvent] at h1

/-- Amended C4: for every reward event the ledger construction produces
exactly four postings in one posting group — a debit/credit pair of
grossValue (stock_inventory / cash_outflow) and a debit/credit pair of
totalFees (fees_expense / cash_outflow) — so total debits equal total
credits; every posting has at least one side exactly zero, and whenever
grossValue and totalFees are both strictly positive every posting has
exactly one strictly positive side (with totalFees = 0, reachable by fee
rounding, both sides of the fee pair are zero). -/
theorem createLedgerEntries_balanced (ev : RewardEvent) :
    (createLedgerEntries ev).length = 4 ∧
    (∀ e ∈ createLedgerEntries ev, e.EntryGroupID = entryGroupID ev) ∧
    (createLedgerEntries ev).map LedgerEntry.AccountType =
      ["stock_inventory", "cash_outflow", "fees_expense", "cash_outflow"] ∧
    (createLedgerEntries ev).map LedgerEntry.DebitAmount =
      [ev.TotalValue, 0, ev.TotalFees, 0] ∧
    (createLedgerEntries ev).map LedgerEntry.CreditAmount =
      [0, ev.TotalValue, 0, ev.TotalFees] ∧
    ((createLedgerEntries ev).map LedgerEntry.DebitAmount).sum =
      ((createLedgerEntries ev).map LedgerEntry.CreditAmount).sum ∧
    (∀ e ∈ createLedgerEntries ev, e.DebitAmount = 0 ∨ e.CreditAmount = 0) ∧
    (0 < ev.TotalValue → 0 < ev.TotalFees →
      ∀ e ∈ createLedgerEntries ev, ledgerRowOk e) := by
  refine ⟨rfl, ?_, rfl, rfl, rfl, ?_, ?_, ?_⟩
  · intro e he
    simp only [createLedgerEntries, List.mem_cons, List.not_mem_nil, or_false] at he
    rcases he with rfl | rfl | rfl | rfl <;> rfl
  · simp [createLedgerEntries]
  · intro e he
    simp only [createLedgerEntries, List.mem_cons, List.not_mem_nil, or_false] at he
    rcases he with rfl | rfl | rfl | rfl <;> simp
  · intro hv hf e he
    simp only [createLedgerEntries, List.mem_cons, List.not_mem_nil, or_false] at he
    rcases he with rfl | rfl | rfl | rfl
    · exact Or.inl ⟨hv, rfl⟩
    · exact Or.inr ⟨hv, rfl⟩
    · exact Or.inl ⟨hf, rfl⟩
    · exact Or.inr ⟨hf, rfl⟩

/-- Witness for the amended statement of C4 at the stored fixture event
(gross value 190, fees 5, both strictly positive). -/
theorem createLedgerEntries_balanced_witness :
    (createLedgerEntries storedEvent).length = 4 ∧
    (∀ e ∈ createLedgerEntries storedEvent,
      e.EntryGroupID = entryGroupID storedEvent) ∧
    (createLedgerEntries storedEvent).map LedgerEntry.AccountType =
      ["stock_inventory", "cash_outflow", "fees_expense", "cash_outflow"] ∧
    (createLedgerEntries storedEvent).map LedgerEntry.DebitAmount =
      [storedEvent.TotalValue, 0, storedEvent.TotalFees, 0] ∧
    (createLedgerEntries storedEvent).map LedgerEntry.CreditAmount =
      [0, storedEvent.TotalValue, 0, storedEvent.TotalFees] ∧
    ((createLedgerEntries storedEvent).map LedgerEntry.DebitAmount).sum =
      ((createLedgerEntries storedEvent).map LedgerEntry.CreditAmount).sum ∧
    (∀ e ∈ createLedgerEntries storedEvent,
      e.DebitAmount = 0 ∨ e.CreditAmount = 0) ∧
    (0 < storedEvent.TotalValue → 0 < storedEvent.TotalFees →
      ∀ e ∈ createLedgerEntries storedEvent, ledgerRowOk e) :=
  createLedgerEntries_balanced storedEvent

/-! ## C6 — uniqueness violation at insert time -/

/-- Variant of `envOK` with the record insert failing on the idempotency-key
uniqueness constraint (a concurrent request committed after the lookup). -/
def envConflict : Env := { envOK with insertFault := some .uniqueViolation }

/-- C6 counterexample: when the insert hits the uniqueness violation,
`CreateReward` surfaces the wrapped insert error to the caller — it does
not re-fetch and return the existing record as the claim states. -/
theorem CreateReward_uniqueViolation_surfaces_error :
    CreateReward envConflict reqTCS dbEmpty =
      (.error .createRewardEventFailed, dbEmpty) := by
  simp [CreateReward, envConflict, envOK, reqTCS, dbEmpty, findByKey, stockTCS]

/-- Amended C6: any insert failure — the uniqueness race included — makes
`CreateReward` return the insert error and leave the stored state
unchanged; there is no re-fetch (the existing record is only returned
when the caller retries and the idempotency lookup finds it). -/
theorem CreateReward_insertFault_error (env : Env) (req : RewardRequest)
    (db : DB) (stock : Stock) (price : ℚ) (f : InsertFault)
    (hlf : env.lookupFault = false)
    (hfind : findByKey db.rewardEvents req.IdempotencyKey = none)
    (hstock : env.stocks req.StockSymbol = some stock)
    (hactive : stock.IsActive = true)
    (hprice : env.price req.StockSymbol = some price)
    (hins : env.insertFault = some f) :
    CreateReward env req db = (.error .createRewardEventFailed, db) := by
  simp [CreateReward, hlf, hfind, hstock, hactive, hprice, hins]

/-- Witness for the amended statement of C6: the concrete conflicting insert. -/
theorem CreateReward_insertFault_error_witness :
    CreateReward { envOK with insertFault := some .otherError } reqTCS dbEmpty =
      (.error .createRewardEventFailed, dbEmpty) :=
  CreateReward_insertFault_error _ reqTCS dbEmpty stockTCS 100 .otherError rfl rfl
    (by simp [envOK, reqTCS]) rfl (by simp [envOK, reqTCS]) rfl

end Stocky
